import Mathlib

/-! Verification of the employee-scheduler application: a shallow embedding of
the validation, store, attendance-ledger and maintenance operations of
`src/main.py` and `src/data-clear.py`, together with theorems about them.

Conventions of the embedding:
* SQLite `REAL` values are modelled exactly: finite doubles as rationals, with
  the IEEE special values NaN and infinity kept as explicit constructors
  (binary64 rounding and overflow are abstracted to exact rational arithmetic;
  no statement below depends on them).  `sqlite3` converts a NaN double to
  `NULL` when it is bound (`sqlite3VdbeMemSetDouble` maps NaN to the SQL NULL),
  so a NaN `hourly_rate` violates the column's `NOT NULL` constraint and
  raises `sqlite3.IntegrityError`; the store operations model this branch.
* Timestamps are modelled at second granularity (the code stores
  `isoformat(timespec='seconds')`): a stored timestamp is a civil time in
  seconds together with an optional UTC offset, and a zone is a pair of
  functions giving the offset at an instant (`datetime.now(tz=EASTERN)`) and
  the offset attached to a naive civil time (`replace(tzinfo=EASTERN)`).
* Strings are ASCII; `str.strip`, `str.isdigit`, `float(...)` and
  `str.split('.')` are embedded over `List Char`. -/

namespace Scheduler

/-- Whitespace stripped by Python `str.strip()` and by `float(...)` (ASCII part). -/
def isPyWS (c : Char) : Bool :=
  c = ' ' || c = '\t' || c = '\n' || c = '\r' || c = '\x0b' || c = '\x0c'

/-- Strip leading and trailing whitespace from a character list. -/
def trimWS (cs : List Char) : List Char :=
  ((cs.dropWhile isPyWS).reverse.dropWhile isPyWS).reverse

/-- Python `str.strip()`. -/
def trimS (s : String) : String := String.mk (trimWS s.data)

/-- Python `str.isdigit()` (ASCII digits; nonempty). -/
def isDigitStr (s : String) : Bool := !s.data.isEmpty && s.data.all Char.isDigit

/-- Value of a list of decimal digit characters, most significant first. -/
def digitsVal (ds : List Char) : Nat := ds.foldl (fun n c => n * 10 + (c.toNat - 48)) 0

/-- Python `int(s)` on a digit string. -/
def strToNat (s : String) : Nat := digitsVal s.data

/-- Python `int(s)` on a digit string, as an SQLite INTEGER. -/
def strToInt (s : String) : Int := (strToNat s : Int)

/-- Python `str.split('.')`, over character lists. -/
def splitOnDot : List Char → List (List Char)
  | [] => [[]]
  | c :: rest =>
    let r := splitOnDot rest
    if c = '.' then [] :: r
    else
      match r with
      | [] => [[c]]
      | g :: gs => (c :: g) :: gs

/-- A CPython `float` value: NaN, a signed infinity, or a finite value
(represented by the exact rational value of the parsed literal). -/
inductive PyFloat where
  | nan : PyFloat
  | inf : Bool → PyFloat
  | finite : Rat → PyFloat
deriving DecidableEq

/-- The comparison `rate < 0` of `src/main.py` line 39 (`nan < 0` and
`-0.0 < 0` are both false in Python; a negative finite value is less than 0;
a rational is negative exactly when its numerator is). -/
def pyLtZero : PyFloat → Bool
  | .nan => false
  | .inf b => b
  | .finite q => q.num < 0

/-- Whether the value is NaN. -/
def PyFloat.isNan : PyFloat → Bool
  | .nan => true
  | _ => false

/-- Auxiliary scan for `underscoresOK`: `prev` is the previous character. -/
def usOKAux : Char → List Char → Bool
  | _, [] => true
  | prev, c :: rest =>
    if c = '_' then
      prev.isDigit &&
        (match rest with
         | d :: _ => d.isDigit
         | [] => false) &&
        usOKAux c rest
    else usOKAux c rest

/-- CPython requires every underscore in a numeric string to be surrounded by
digits (`_Py_string_to_double_with_underscores`). -/
def underscoresOK : List Char → Bool
  | [] => true
  | c :: rest => c ≠ '_' && usOKAux c rest

/-- Read an optional leading sign; returns (isNegative, rest). -/
def readSign (cs : List Char) : Bool × List Char :=
  match cs with
  | c :: r => if c = '+' then (false, r) else if c = '-' then (true, r) else (false, cs)
  | [] => (false, cs)

/-- Exact value of a parsed decimal literal `ip . fp × 10^ex` with sign,
built as a single integer quotient. -/
def mkVal (neg : Bool) (ip fp : List Char) (ex : Int) : Rat :=
  let m : Int := ((digitsVal ip * 10 ^ fp.length + digitsVal fp : Nat) : Int)
  let m := if neg then -m else m
  if 0 ≤ ex then Rat.divInt (m * (10 : Int) ^ ex.toNat) ((10 : Nat) ^ fp.length : Nat)
  else Rat.divInt m ((((10 : Nat) ^ fp.length) * (10 : Nat) ^ (-ex).toNat : Nat) : Int)

/-- Parse the optional exponent part after the mantissa digits. -/
def parseExp (neg : Bool) (ip fp : List Char) (rest : List Char) : Option PyFloat :=
  match rest with
  | [] => some (.finite (mkVal neg ip fp 0))
  | e :: r =>
    if e = 'e' || e = 'E' then
      let p := readSign r
      let ed := p.2.takeWhile Char.isDigit
      let r3 := p.2.dropWhile Char.isDigit
      if ed.isEmpty || !r3.isEmpty then none
      else
        some (.finite (mkVal neg ip fp
          (if p.1 then -(digitsVal ed : Int) else (digitsVal ed : Int))))
    else none

/-- Parse a decimal number `d* [. d*] [exponent]` (at least one mantissa digit). -/
def parseNumber (neg : Bool) (cs : List Char) : Option PyFloat :=
  let ip := cs.takeWhile Char.isDigit
  let r1 := cs.dropWhile Char.isDigit
  match r1 with
  | '.' :: r2 =>
    let fp := r2.takeWhile Char.isDigit
    let r3 := r2.dropWhile Char.isDigit
    if ip.isEmpty && fp.isEmpty then none else parseExp neg ip fp r3
  | _ => if ip.isEmpty then none else parseExp neg ip [] r1

/-- Keyword spellings accepted by `float(...)` besides decimal numbers. -/
def kwInf : List Char := ['i', 'n', 'f']

/-- The spelling `infinity`. -/
def kwInfinity : List Char := ['i', 'n', 'f', 'i', 'n', 'i', 't', 'y']

/-- The spelling `nan`. -/
def kwNan : List Char := ['n', 'a', 'n']

/-- Case-insensitive comparison against a lower-case keyword. -/
def lowerEq (cs kw : List Char) : Bool := cs.map Char.toLower = kw

/-- Parse the part after the optional sign.  A decimal number necessarily
starts with a digit or a dot, and the keywords with `i`/`n`, so dispatching on
the first character is equivalent to CPython's grammar. -/
def parseUnsigned (neg : Bool) (cs : List Char) : Option PyFloat :=
  match cs with
  | [] => none
  | c :: _ =>
    if c.isDigit || c = '.' then parseNumber neg cs
    else if lowerEq cs kwInf || lowerEq cs kwInfinity then some (.inf neg)
    else if lowerEq cs kwNan then some .nan
    else none

/-- Python `float(s)` on a string: strip whitespace, check underscore
placement, read the sign, then parse a number or keyword. -/
def pyFloat (s : String) : Option PyFloat :=
  let cs := trimWS s.data
  if underscoresOK cs then
    let cs1 := cs.filter (fun c => c ≠ '_')
    let p := readSign cs1
    parseUnsigned p.1 p.2
  else none

/-- Round-half-to-even of a rational to an integer (Python `round`), computed
on the numerator and denominator: with `f = ⌊q⌋` the fractional part
`q - f = (num - f·den)/den` is compared against `1/2` by comparing
`2·(num - f·den)` against `den`. -/
def roundHalfEven (q : Rat) : Int :=
  let n := q.num
  let d : Int := (q.den : Int)
  let f := Int.fdiv n d
  let twice := 2 * (n - f * d)
  if twice < d then f
  else if d < twice then f + 1
  else if f % 2 = 0 then f else f + 1

/-- Python `round(x, 2)` on the exact rational value. -/
def round2 (q : Rat) : Rat :=
  Rat.divInt (roundHalfEven (Rat.divInt (100 * q.num) (q.den : Int))) 100

/-- Python `round(x, 2)` on a float value (`round(nan, 2)` is NaN and
`round(inf, 2)` is inf). -/
def round2Py : PyFloat → PyFloat
  | .nan => .nan
  | .inf b => .inf b
  | .finite q => .finite (round2 q)

/-- Violation message of src/main.py line 25. -/
def idErrMsg : String := "Employee ID must be an integer."

/-- Violation message of src/main.py line 29. -/
def nameErrMsg : String := "Name must contain only letters and spaces."

/-- Violation message of src/main.py line 33. -/
def phoneErrMsg : String := "Phone must contain only digits."

/-- Violation message of src/main.py line 40. -/
def rateNegMsg : String := "Hourly rate must be non-negative."

/-- Violation message of src/main.py line 45. -/
def ratePrecMsg : String := "Hourly rate can have at most 2 decimal places."

/-- Violation message of src/main.py line 47. -/
def rateNumMsg : String := "Hourly rate must be a number."

/-- `re.fullmatch(r"[A-Za-z ]+", name)`: nonempty, letters and spaces only. -/
def isNameStr (s : String) : Bool :=
  !s.data.isEmpty && s.data.all (fun c => c.isAlpha || c = ' ')

/-- Violations contributed by the employee-id rule alone. -/
def idErrs (employee_id : String) : List String :=
  if isDigitStr employee_id then [] else [idErrMsg]

/-- Violations contributed by the name rule alone. -/
def nameErrs (name : String) : List String :=
  if isNameStr name then [] else [nameErrMsg]

/-- Violations contributed by the phone rule alone. -/
def phoneErrs (phone : String) : List String :=
  if isDigitStr phone then [] else [phoneErrMsg]

/-- Violations contributed by the hourly-rate rule alone: `float(...)` failure
is "must be a number"; a negative value is "must be non-negative"; otherwise
the string is split on `'.'` and exactly two parts with a long second part is
the precision violation. -/
def rateErrs (hourly_rate : String) : List String :=
  match pyFloat hourly_rate with
  | none => [rateNumMsg]
  | some v =>
    if pyLtZero v then [rateNegMsg]
    else
      match splitOnDot hourly_rate.data with
      | [_, frac] => if 2 < frac.length then [ratePrecMsg] else []
      | _ => []

/-- `validate_employee` of src/main.py lines 20-49, mirroring the sequential
appends of the source. -/
def validate_employee (employee_id name phone hourly_rate : String) : List String :=
  let errors : List String := []
  let errors := if isDigitStr employee_id then errors else errors ++ [idErrMsg]
  let errors := if isNameStr name then errors else errors ++ [nameErrMsg]
  let errors := if isDigitStr phone then errors else errors ++ [phoneErrMsg]
  let errors :=
    match pyFloat hourly_rate with
    | none => errors ++ [rateNumMsg]
    | some v =>
      if pyLtZero v then errors ++ [rateNegMsg]
      else
        match splitOnDot hourly_rate.data with
        | [_, frac] => if 2 < frac.length then errors ++ [ratePrecMsg] else errors
        | _ => errors
  errors

example : pyFloat "15.50" = some (.finite (Rat.divInt 31 2)) := by decide
example : pyFloat "nan" = some .nan := by decide
example : pyFloat "abc" = none := by decide
example : pyFloat "-1e2" = some (.finite (-100)) := by decide
example : pyFloat " 1_0.5 " = some (.finite (Rat.divInt 21 2)) := by decide
example : pyFloat "1_.5" = none := by decide
example : validate_employee "101" "Ana Lee" "5551234567" "15.50" = [] := by decide
example : validate_employee "101" "Ana" "555" "15.555" = [ratePrecMsg] := by decide
example : validate_employee "101" "Ana" "555" "abc" = [rateNumMsg] := by decide
example : validate_employee "101" "Ana" "555" "nan" = [] := by decide
example : round2 (Rat.divInt 17 2) = Rat.divInt 17 2 := by decide
example : round2 (Rat.divInt 30600 3600) = Rat.divInt 17 2 := by decide

/-- A zone (`zoneinfo.ZoneInfo("America/New_York")` in the code): the UTC
offset in seconds at a given instant, and the offset attached to a naive
civil time by `replace(tzinfo=...)`. -/
structure Zone where
  instOff : Int → Int
  civOff : Int → Int

/-- A fixed-offset stand-in for the Eastern zone (UTC-5, i.e. -18000 s),
used for concrete scenarios. -/
def estZone : Zone := ⟨fun _ => -18000, fun _ => -18000⟩

/-- A stored timestamp: civil time in seconds plus an optional UTC offset
(the offset is present in `isoformat` output of an aware datetime and absent
in a legacy naive timestamp). -/
structure Timestamp where
  civil : Int
  offset : Option Int
deriving DecidableEq

/-- The aware timestamp written for the instant `t` by
`datetime.now(tz=EASTERN).isoformat(timespec='seconds')`. -/
def Zone.nowTs (z : Zone) (t : Int) : Timestamp :=
  ⟨t + z.instOff t, some (z.instOff t)⟩

/-- The instant denoted by a stored timestamp, as read back by
`datetime.fromisoformat` followed by `replace(tzinfo=EASTERN)` when the
stored value has no zone information (src/main.py lines 297-300). -/
def instantOf (z : Zone) (ts : Timestamp) : Int :=
  match ts.offset with
  | some o => ts.civil - o
  | none => ts.civil - z.civOff ts.civil

/-- A row of the `employees` table of `init_db`. -/
structure EmployeeRow where
  id : Nat
  employee_id : Int
  name : String
  phone : String
  hourly_rate : PyFloat
deriving DecidableEq

/-- A row of the `time_logs` table of `init_db`.  `clock_in` is set by every
insert the application performs, so it is modelled as non-optional. -/
structure TimeLogRow where
  id : Nat
  employee_id : Int
  clock_in : Timestamp
  clock_out : Option Timestamp
  hours_worked : Option Rat
deriving DecidableEq

/-- The database state: both tables in rowid order plus the next
autoincrement key of each. -/
structure DB where
  employees : List EmployeeRow
  time_logs : List TimeLogRow
  next_emp_id : Nat
  next_log_id : Nat
deriving DecidableEq

/-- The state created by `init_db`: both tables empty, autoincrement keys
starting at 1. -/
def emptyDB : DB := ⟨[], [], 1, 1⟩

/-- Outcome of a request, one constructor per `flash(...)` call of the
source (the Rat argument of `clockedOut` is the computed hours figure). -/
inductive Outcome where
  | deleted
  | employeeNotFound
  | missingOrInvalidId
  | missingFields
  | validationFailed : List String → Outcome
  | duplicateExists
  | duplicateOther
  | integrityError
  | added
  | updated
  | invalidEmployeeId
  | clockedIn
  | clockedOut : Rat → Outcome
  | noOpenEntry
  | hoursReset
  | noAction
deriving DecidableEq

/-- The outcomes the specification's error taxonomy calls
`DuplicateIdentifier`: the add-route pre-check message, the update-route
pre-check message, and the `sqlite3.IntegrityError` handler message. -/
def isDuplicateIdentifier : Outcome → Bool
  | .duplicateExists => true
  | .duplicateOther => true
  | .integrityError => true
  | _ => false

/-- `SELECT ... ORDER BY id DESC LIMIT 1` fold: keep the row with the
largest id. -/
def pickMax (acc : Option TimeLogRow) (l : TimeLogRow) : Option TimeLogRow :=
  match acc with
  | none => some l
  | some m => if m.id < l.id then some l else some m

/-- The row with the largest id, if any. -/
def maxById (ls : List TimeLogRow) : Option TimeLogRow := ls.foldl pickMax none

/-- src/main.py lines 291-294: the most recent open entry of an employee
(`WHERE employee_id=? AND clock_out IS NULL ORDER BY id DESC LIMIT 1`). -/
def findOpenLog (logs : List TimeLogRow) (eid : Int) : Option TimeLogRow :=
  maxById (logs.filter (fun l => l.employee_id == eid && l.clock_out.isNone))

/-- The `action == 'delete'` branch of the `index` route (src/main.py lines
121-136): look up the employee row by rowid, delete its time logs by
`employee_id`, then delete the employee row. -/
def deleteEmployee (db : DB) (rowIdField : String) : DB × Outcome :=
  if isDigitStr rowIdField then
    match db.employees.find? (fun e => e.id == strToNat rowIdField) with
    | some emp =>
      ({ db with
         employees := db.employees.filter (fun e => e.id != strToNat rowIdField),
         time_logs := db.time_logs.filter (fun l => l.employee_id != emp.employee_id) },
       .deleted)
    | none => (db, .employeeNotFound)
  else (db, .missingOrInvalidId)

/-- The add-employee branch of the `index` route (src/main.py lines 176-210):
strip fields, require them nonempty, validate, pre-check uniqueness of the
employee id, then insert.  Binding a NaN `hourly_rate` stores SQL NULL and
the `NOT NULL` constraint raises `sqlite3.IntegrityError` (line 207). -/
def addEmployee (db : DB) (employee_id name phone hourly_rate : String) : DB × Outcome :=
  let eid := trimS employee_id
  let nm := trimS name
  let ph := trimS phone
  let hr := trimS hourly_rate
  if eid = "" ∨ nm = "" ∨ ph = "" ∨ hr = "" then (db, .missingFields)
  else
    let errs := validate_employee eid nm ph hr
    if errs ≠ [] then (db, .validationFailed errs)
    else
      let eidInt := strToInt eid
      let hrVal := round2Py ((pyFloat hr).getD (.finite 0))
      if db.employees.any (fun e => e.employee_id == eidInt) then (db, .duplicateExists)
      else if hrVal.isNan then (db, .integrityError)
      else
        ({ db with
           employees := db.employees ++ [⟨db.next_emp_id, eidInt, nm, ph, hrVal⟩],
           next_emp_id := db.next_emp_id + 1 },
         .added)

/-- The `action == 'update'` branch of the `index` route (src/main.py lines
138-174): require a digit rowid and nonempty stripped fields, validate,
pre-check that no *other* row holds the new employee id, then update the row.
As in `addEmployee`, a NaN rate reaches the `sqlite3.IntegrityError` handler
(line 172) when the targeted row exists; with no targeted row the UPDATE
touches nothing and still reports success. -/
def updateEmployee (db : DB) (rowIdField employee_id name phone hourly_rate : String) :
    DB × Outcome :=
  let eid := trimS employee_id
  let nm := trimS name
  let ph := trimS phone
  let hr := trimS hourly_rate
  if ¬ (isDigitStr rowIdField = true ∧ eid ≠ "" ∧ nm ≠ "" ∧ ph ≠ "" ∧ hr ≠ "") then
    (db, .missingFields)
  else
    let errs := validate_employee eid nm ph hr
    if errs ≠ [] then (db, .validationFailed errs)
    else
      let eidInt := strToInt eid
      let hrVal := round2Py ((pyFloat hr).getD (.finite 0))
      let rid := strToNat rowIdField
      if db.employees.any (fun e => e.employee_id == eidInt && e.id != rid) then
        (db, .duplicateOther)
      else if hrVal.isNan && db.employees.any (fun e => e.id == rid) then
        (db, .integrityError)
      else
        ({ db with
           employees := db.employees.map (fun e =>
             if e.id == rid then
               { e with employee_id := eidInt, name := nm, phone := ph, hourly_rate := hrVal }
             else e) },
         .updated)

/-- The `/clock` route (src/main.py lines 258-314).  `now` is the instant at
which the request runs; `z` is the `EASTERN` zone object. -/
def clock (db : DB) (employee_id action : String) (now : Int) (z : Zone) : DB × Outcome :=
  let eid := trimS employee_id
  if eid = "" ∨ action = "" then (db, .missingFields)
  else if ¬ isDigitStr eid then (db, .invalidEmployeeId)
  else
    let e := strToInt eid
    if ¬ db.employees.any (fun emp => emp.employee_id == e) then (db, .employeeNotFound)
    else if action = "clock_in" then
      ({ db with
         time_logs := db.time_logs ++ [⟨db.next_log_id, e, z.nowTs now, none, none⟩],
         next_log_id := db.next_log_id + 1 },
       .clockedIn)
    else if action = "clock_out" then
      match findOpenLog db.time_logs e with
      | some log =>
        let delta := round2 (Rat.divInt (now - instantOf z log.clock_in) 3600)
        ({ db with
           time_logs := db.time_logs.map (fun l =>
             if l.id == log.id then
               { l with clock_out := some (z.nowTs now), hours_worked := some delta }
             else l) },
         .clockedOut delta)
      | none => (db, .noOpenEntry)
    else (db, .noAction)

/-- The `/reset_hours` route (src/main.py lines 319-337): zero
`hours_worked` on every `time_logs` row of the employee. -/
def reset_hours (db : DB) (employee_id : String) : DB × Outcome :=
  let e := trimS employee_id
  if e = "" ∨ ¬ isDigitStr e then (db, .missingOrInvalidId)
  else
    let eInt := strToInt e
    if ¬ db.employees.any (fun emp => emp.employee_id == eInt) then (db, .employeeNotFound)
    else
      ({ db with
         time_logs := db.time_logs.map (fun l =>
           if l.employee_id == eInt then { l with hours_worked := some (0 : Rat) } else l) },
       .hoursReset)

/-- SQLite's text rendering of an INTEGER value, digit characters built
least-significant first from `n % 10`. -/
def natChars (n : Nat) (acc : List Char) : List Char :=
  let d := Char.ofNat (48 + n % 10)
  if h : n < 10 then d :: acc else natChars (n / 10) (d :: acc)
termination_by n
decreasing_by exact Nat.div_lt_self (by omega) (by omega)

/-- SQLite's text rendering of an INTEGER (used when an INTEGER operand is
given to `LIKE`). -/
def sqliteIntText (i : Int) : String :=
  match i with
  | .ofNat n => String.mk (natChars n [])
  | .negSucc n => String.mk ('-' :: natChars (n + 1) [])

/-- SQLite `x LIKE 'EMP%'`: the text of `x` starts with `EMP`,
case-insensitively for ASCII. -/
def likeEmpPat (s : String) : Bool :=
  match s.data with
  | a :: b :: c :: _ =>
    (a == 'E' || a == 'e') && (b == 'M' || b == 'm') && (c == 'P' || c == 'p')
  | _ => false

/-- `clear_test_employees` of src/data-clear.py lines 10-19: delete the
time-log rows and then the employee rows whose `employee_id` matches
`LIKE 'EMP%'`. -/
def clear_test_employees (db : DB) : DB :=
  { db with
    time_logs := db.time_logs.filter (fun l => !likeEmpPat (sqliteIntText l.employee_id)),
    employees := db.employees.filter (fun e => !likeEmpPat (sqliteIntText e.employee_id)) }

/-- One request against the shared database, for the reachability relation. -/
inductive Op where
  | add : String → String → String → String → Op
  | upd : String → String → String → String → String → Op
  | del : String → Op
  | clk : String → String → Int → Zone → Op
  | rst : String → Op
  | clr : Op

/-- The state after a request. -/
def stateAfter : Op → DB → DB
  | .add i n p r, db => (addEmployee db i n p r).1
  | .upd rid i n p r, db => (updateEmployee db rid i n p r).1
  | .del rid, db => (deleteEmployee db rid).1
  | .clk i a now z, db => (clock db i a now z).1
  | .rst i, db => (reset_hours db i).1
  | .clr, db => clear_test_employees db

/-- One step of the system: some request ran. -/
def Step (db db' : DB) : Prop := ∃ op, stateAfter op db = db'

/-- A state is reachable when some request sequence produces it from the
freshly initialised database. -/
def Reachable (db : DB) : Prop := Relation.ReflTransGen Step emptyDB db

example :
    (clock
      { emptyDB with
        employees := [⟨1, 101, "Ana Lee", "5551234567", .finite (Rat.divInt 31 2)⟩],
        time_logs := [⟨1, 101, ⟨32400, none⟩, none, none⟩],
        next_emp_id := 2, next_log_id := 2 }
      "101" "clock_out" 81000 estZone).2 = .clockedOut (Rat.divInt 17 2) := by decide

example :
    stateAfter (.rst "101")
      (stateAfter (.clk "101" "clock_in" 0 estZone)
        (stateAfter (.add "101" "Ana" "5551234567" "15.50") emptyDB)) =
    { emptyDB with
      employees := [⟨1, 101, "Ana", "5551234567", .finite (Rat.divInt 31 2)⟩],
      time_logs := [⟨1, 101, ⟨-18000, some (-18000)⟩, none, some 0⟩],
      next_emp_id := 2, next_log_id := 2 } := by decide

theorem digit_ne {c x : Char} (h : c.isDigit = true) (hx : x.isDigit = false) : c ≠ x := by
  intro he
  rw [he, hx] at h
  exact Bool.noConfusion h

theorem not_ws_of_digit {c : Char} (h : c.isDigit = true) : isPyWS c = false := by
  cases hw : isPyWS c
  · rfl
  · exfalso
    simp only [isPyWS, Bool.or_eq_true, decide_eq_true_eq] at hw
    rcases hw with ((((h1 | h1) | h1) | h1) | h1) | h1 <;> subst h1 <;>
      exact absurd h (by decide)

theorem dropWhile_eq_self_of {p : Char → Bool} {l : List Char}
    (h : ∀ c ∈ l, p c = false) : l.dropWhile p = l := by
  cases l with
  | nil => rfl
  | cons a t => rw [List.dropWhile_cons, h a (by simp)]; simp

theorem trimWS_eq_self {l : List Char} (h : ∀ c ∈ l, isPyWS c = false) : trimWS l = l := by
  unfold trimWS
  rw [dropWhile_eq_self_of h,
    dropWhile_eq_self_of (fun c hc => h c (List.mem_reverse.mp hc)), List.reverse_reverse]

theorem usOKAux_of {rest : List Char} (h : ∀ c ∈ rest, c ≠ '_') :
    ∀ prev, usOKAux prev rest = true := by
  induction rest with
  | nil => intro prev; rfl
  | cons c t ih =>
    intro prev
    unfold usOKAux
    rw [if_neg (h c (by simp))]
    exact ih (fun x hx => h x (by simp [hx])) c

theorem underscoresOK_of {l : List Char} (h : ∀ c ∈ l, c ≠ '_') : underscoresOK l = true := by
  cases l with
  | nil => rfl
  | cons c t =>
    simp only [underscoresOK, Bool.and_eq_true]
    exact ⟨by simp [h c (by simp)], usOKAux_of (fun x hx => h x (by simp [hx])) c⟩

theorem takeWhile_append_not {p : Char → Bool} {ds : List Char} {x : Char} {t : List Char}
    (had : ∀ c ∈ ds, p c = true) (hx : p x = false) :
    (ds ++ x :: t).takeWhile p = ds ∧ (ds ++ x :: t).dropWhile p = x :: t := by
  induction ds with
  | nil => simp [List.takeWhile_cons, List.dropWhile_cons, hx]
  | cons d dt ih =>
    have hd := had d (by simp)
    have hih := ih (fun c hc => had c (by simp [hc]))
    simp [List.takeWhile_cons, List.dropWhile_cons, hd, hih.1, hih.2]

theorem takeWhile_all {p : Char → Bool} {l : List Char} (h : ∀ c ∈ l, p c = true) :
    l.takeWhile p = l ∧ l.dropWhile p = [] := by
  induction l with
  | nil => simp
  | cons d dt ih =>
    have hd := h d (by simp)
    have hih := ih (fun c hc => h c (by simp [hc]))
    simp [List.takeWhile_cons, List.dropWhile_cons, hd, hih.1, hih.2]

theorem splitOnDot_no_dot {l : List Char} (h : ∀ c ∈ l, c ≠ '.') : splitOnDot l = [l] := by
  induction l with
  | nil => rfl
  | cons c t ih =>
    unfold splitOnDot
    rw [if_neg (h c (by simp)), ih (fun x hx => h x (by simp [hx]))]

theorem splitOnDot_append {ds fs : List Char} (hds : ∀ c ∈ ds, c ≠ '.')
    (hfs : ∀ c ∈ fs, c ≠ '.') : splitOnDot (ds ++ '.' :: fs) = [ds, fs] := by
  induction ds with
  | nil =>
    show splitOnDot ('.' :: fs) = [[], fs]
    unfold splitOnDot
    rw [if_pos rfl, splitOnDot_no_dot hfs]
  | cons d dt ih =>
    show splitOnDot (d :: (dt ++ '.' :: fs)) = [d :: dt, fs]
    unfold splitOnDot
    rw [if_neg (hds d (by simp)), ih (fun x hx => hds x (by simp [hx]))]

theorem pyFloat_plain {ds fs : List Char} (hne : ds ≠ [])
    (had : ∀ c ∈ ds, c.isDigit = true) (haf : ∀ c ∈ fs, c.isDigit = true) :
    pyFloat (String.mk (ds ++ '.' :: fs)) = some (.finite (mkVal false ds fs 0)) := by
  have hmem : ∀ c ∈ ds ++ '.' :: fs, c.isDigit = true ∨ c = '.' := by
    intro c hc
    rcases List.mem_append.mp hc with h1 | h1
    · exact Or.inl (had c h1)
    · rcases List.mem_cons.mp h1 with h2 | h2
      · exact Or.inr h2
      · exact Or.inl (haf c h2)
  have hnw : ∀ c ∈ ds ++ '.' :: fs, isPyWS c = false := by
    intro c hc
    rcases hmem c hc with h1 | h1
    · exact not_ws_of_digit h1
    · subst h1; decide
  have hnu : ∀ c ∈ ds ++ '.' :: fs, c ≠ '_' := by
    intro c hc
    rcases hmem c hc with h1 | h1
    · exact digit_ne h1 (by decide)
    · subst h1; decide
  obtain ⟨d, dt, rfl⟩ := List.exists_cons_of_ne_nil hne
  have hd : d.isDigit = true := had d (by simp)
  have ht := takeWhile_append_not (x := '.') (t := fs) had (by decide)
  have hf := takeWhile_all haf
  have hnum : parseNumber false ((d :: dt) ++ '.' :: fs) =
      some (.finite (mkVal false (d :: dt) fs 0)) := by
    simp only [parseNumber, ht.1, ht.2, hf.1, hf.2]
    simp [parseExp]
  unfold pyFloat
  rw [show (String.mk ((d :: dt) ++ '.' :: fs)).data = (d :: dt) ++ '.' :: fs from rfl,
    trimWS_eq_self hnw, if_pos (underscoresOK_of hnu),
    List.filter_eq_self.mpr (fun a ha => decide_eq_true (hnu a ha))]
  show parseUnsigned (readSign (d :: (dt ++ '.' :: fs))).1
      (readSign (d :: (dt ++ '.' :: fs))).2 = _
  rw [show readSign (d :: (dt ++ '.' :: fs)) = (false, d :: (dt ++ '.' :: fs)) by
    simp [readSign, digit_ne hd (by decide : ('+').isDigit = false),
      digit_ne hd (by decide : ('-').isDigit = false)]]
  show parseUnsigned false (d :: (dt ++ '.' :: fs)) = _
  rw [show parseUnsigned false (d :: (dt ++ '.' :: fs)) =
      parseNumber false (d :: (dt ++ '.' :: fs)) by simp [parseUnsigned, hd]]
  exact hnum

theorem pyFloat_digits {ds : List Char} (hne : ds ≠ [])
    (had : ∀ c ∈ ds, c.isDigit = true) :
    pyFloat (String.mk ds) = some (.finite (mkVal false ds [] 0)) := by
  have hnw : ∀ c ∈ ds, isPyWS c = false := fun c hc => not_ws_of_digit (had c hc)
  have hnu : ∀ c ∈ ds, c ≠ '_' := fun c hc => digit_ne (had c hc) (by decide)
  obtain ⟨d, dt, rfl⟩ := List.exists_cons_of_ne_nil hne
  have hd : d.isDigit = true := had d (by simp)
  have ht := takeWhile_all had
  have hnum : parseNumber false (d :: dt) = some (.finite (mkVal false (d :: dt) [] 0)) := by
    have h1 : (d :: dt).takeWhile Char.isDigit = d :: dt := ht.1
    have h2 : (d :: dt).dropWhile Char.isDigit = [] := ht.2
    simp only [parseNumber, h1, h2]
    simp [parseExp]
  unfold pyFloat
  rw [show (String.mk (d :: dt)).data = d :: dt from rfl,
    trimWS_eq_self hnw, if_pos (underscoresOK_of hnu),
    List.filter_eq_self.mpr (fun a ha => decide_eq_true (hnu a ha))]
  show parseUnsigned (readSign (d :: dt)).1 (readSign (d :: dt)).2 = _
  rw [show readSign (d :: dt) = (false, d :: dt) by
    simp [readSign, digit_ne hd (by decide : ('+').isDigit = false),
      digit_ne hd (by decide : ('-').isDigit = false)]]
  show parseUnsigned false (d :: dt) = _
  rw [show parseUnsigned false (d :: dt) = parseNumber false (d :: dt) by
    simp [parseUnsigned, hd]]
  exact hnum

theorem mkVal_num_nonneg (ds fs : List Char) : 0 ≤ (mkVal false ds fs 0).num := by
  rw [Rat.num_nonneg]
  unfold mkVal
  simp only [if_pos (le_refl (0 : Int)), Bool.false_eq_true, if_false]
  exact Rat.divInt_nonneg (by positivity) (by positivity)

theorem rateErrs_plain {ds fs : List Char} (hne : ds ≠ [])
    (had : ∀ c ∈ ds, c.isDigit = true) (haf : ∀ c ∈ fs, c.isDigit = true) :
    rateErrs (String.mk (ds ++ '.' :: fs)) =
      (if 2 < fs.length then [ratePrecMsg] else []) := by
  unfold rateErrs
  rw [pyFloat_plain hne had haf]
  have hlt : pyLtZero (.finite (mkVal false ds fs 0)) = false := by
    simp [pyLtZero, not_lt.mpr (mkVal_num_nonneg ds fs)]
  simp only [hlt, Bool.false_eq_true, if_false]
  rw [splitOnDot_append (fun c hc => digit_ne (had c hc) (by decide))
    (fun c hc => digit_ne (haf c hc) (by decide))]

theorem rateErrs_digits {ds : List Char} (hne : ds ≠ [])
    (had : ∀ c ∈ ds, c.isDigit = true) : rateErrs (String.mk ds) = [] := by
  unfold rateErrs
  rw [pyFloat_digits hne had]
  have hlt : pyLtZero (.finite (mkVal false ds [] 0)) = false := by
    simp [pyLtZero, not_lt.mpr (mkVal_num_nonneg ds [])]
  simp only [hlt, Bool.false_eq_true, if_false]
  rw [splitOnDot_no_dot (fun c hc => digit_ne (had c hc) (by decide))]

theorem rateErrs_parse_fail {s : String} (h : pyFloat s = none) :
    rateErrs s = [rateNumMsg] := by
  unfold rateErrs
  rw [h]

theorem validate_decomp (i n p r : String) :
    validate_employee i n p r = idErrs i ++ nameErrs n ++ phoneErrs p ++ rateErrs r := by
  unfold validate_employee idErrs nameErrs phoneErrs rateErrs
  cases hid : isDigitStr i <;> cases hnm : isNameStr n <;> cases hph : isDigitStr p <;>
    cases hpf : pyFloat r <;>
    simp only [Bool.false_eq_true, if_false, if_true, List.nil_append, List.append_nil,
      List.append_assoc, List.singleton_append, List.cons_append] <;>
    first
    | rfl
    | (cases hlt : pyLtZero _ <;>
        simp only [Bool.false_eq_true, if_false, if_true] <;>
        first
        | rfl
        | (rcases hsp : splitOnDot r.data with _ | ⟨a, _ | ⟨b, _ | _⟩⟩ <;>
            simp only [] <;>
            first
            | rfl
            | (by_cases hb : 2 < b.length <;> simp [hb])))

theorem foldl_pickMax_sorted {ls : List TimeLogRow} :
    ∀ {x : TimeLogRow}, (x :: ls).Pairwise (fun a b => a.id < b.id) →
      ls.foldl pickMax (some x) = (x :: ls).getLast? := by
  induction ls with
  | nil => intro x _; rfl
  | cons y t ih =>
    intro x h
    have hxy : x.id < y.id := (List.pairwise_cons.mp h).1 y (by simp)
    have ht := (List.pairwise_cons.mp h).2
    rw [List.foldl_cons, show pickMax (some x) y = some y by simp [pickMax, hxy],
      ih ht, List.getLast?_cons_cons]

theorem maxById_sorted {ls : List TimeLogRow}
    (h : ls.Pairwise (fun a b => a.id < b.id)) : maxById ls = ls.getLast? := by
  cases ls with
  | nil => rfl
  | cons x t => exact foldl_pickMax_sorted h

theorem findOpenLog_getLast {logs : List TimeLogRow} {eid : Int}
    (h : logs.Pairwise (fun a b => a.id < b.id)) :
    findOpenLog logs eid =
      (logs.filter (fun l => l.employee_id == eid && l.clock_out.isNone)).getLast? :=
  maxById_sorted (List.Pairwise.sublist (List.filter_sublist logs) h)

/-- The ledger part of the schema invariant: `time_logs` is in strictly
increasing rowid order and every rowid is below the autoincrement key. -/
def logsOrdered (db : DB) : Prop :=
  db.time_logs.Pairwise (fun a b => a.id < b.id) ∧
    ∀ l ∈ db.time_logs, l.id < db.next_log_id

theorem logsOrdered_of_frame {db db' : DB} (h : logsOrdered db)
    (h1 : db'.time_logs = db.time_logs) (h2 : db'.next_log_id = db.next_log_id) :
    logsOrdered db' := by
  constructor
  · rw [h1]; exact h.1
  · intro l hl
    rw [h2]
    exact h.2 l (by rw [h1] at hl; exact hl)

theorem logsOrdered_filter {db : DB} (h : logsOrdered db) (p : TimeLogRow → Bool)
    {db' : DB} (h1 : db'.time_logs = db.time_logs.filter p)
    (h2 : db'.next_log_id = db.next_log_id) : logsOrdered db' := by
  constructor
  · rw [h1]
    exact List.Pairwise.sublist (List.filter_sublist db.time_logs) h.1
  · intro l hl
    rw [h1] at hl
    rw [h2]
    exact h.2 l (List.mem_filter.mp hl).1

theorem logsOrdered_map {db : DB} (h : logsOrdered db) (f : TimeLogRow → TimeLogRow)
    (hf : ∀ l, (f l).id = l.id) {db' : DB} (h1 : db'.time_logs = db.time_logs.map f)
    (h2 : db'.next_log_id = db.next_log_id) : logsOrdered db' := by
  constructor
  · rw [h1]
    exact List.Pairwise.map f (fun a b hab => by rw [hf a, hf b]; exact hab) h.1
  · intro l hl
    rw [h1] at hl
    obtain ⟨a, ha, rfl⟩ := List.mem_map.mp hl
    rw [h2, hf a]
    exact h.2 a ha

theorem addEmployee_frame (db : DB) (i n p r : String) :
    (addEmployee db i n p r).1.time_logs = db.time_logs ∧
    (addEmployee db i n p r).1.next_log_id = db.next_log_id := by
  simp only [addEmployee]
  repeat' split
  all_goals exact ⟨rfl, rfl⟩

theorem updateEmployee_frame (db : DB) (rid i n p r : String) :
    (updateEmployee db rid i n p r).1.time_logs = db.time_logs ∧
    (updateEmployee db rid i n p r).1.next_log_id = db.next_log_id := by
  simp only [updateEmployee]
  repeat' split
  all_goals exact ⟨rfl, rfl⟩

theorem logsOrdered_stateAfter {db : DB} (h : logsOrdered db) (op : Op) :
    logsOrdered (stateAfter op db) := by
  cases op with
  | add i n p r =>
    obtain ⟨h1, h2⟩ := addEmployee_frame db i n p r
    exact logsOrdered_of_frame h h1 h2
  | upd rid i n p r =>
    obtain ⟨h1, h2⟩ := updateEmployee_frame db rid i n p r
    exact logsOrdered_of_frame h h1 h2
  | del rid =>
    show logsOrdered (deleteEmployee db rid).1
    simp only [deleteEmployee]
    split
    · split
      · exact logsOrdered_filter h _ rfl rfl
      · exact logsOrdered_of_frame h rfl rfl
    · exact logsOrdered_of_frame h rfl rfl
  | clk s a now z =>
    show logsOrdered (clock db s a now z).1
    simp only [clock]
    split
    · exact logsOrdered_of_frame h rfl rfl
    split
    · exact logsOrdered_of_frame h rfl rfl
    split
    · exact logsOrdered_of_frame h rfl rfl
    split
    · -- clock-in: append a fresh row carrying the autoincrement key
      constructor
      · rw [List.pairwise_append]
        refine ⟨h.1, List.pairwise_singleton _ _, ?_⟩
        intro x hx b hb
        rw [List.mem_singleton.mp hb]
        exact h.2 x hx
      · intro l hl
        rcases List.mem_append.mp hl with h1 | h1
        · exact Nat.lt_succ_of_lt (h.2 l h1)
        · rw [List.mem_singleton.mp h1]
          exact Nat.lt_succ_self _
    split
    · split
      · exact logsOrdered_map h _ (fun l => by split <;> rfl) rfl rfl
      · exact logsOrdered_of_frame h rfl rfl
    · exact logsOrdered_of_frame h rfl rfl
  | rst s =>
    show logsOrdered (reset_hours db s).1
    simp only [reset_hours]
    split
    · exact logsOrdered_of_frame h rfl rfl
    split
    · exact logsOrdered_of_frame h rfl rfl
    · exact logsOrdered_map h _ (fun l => by split <;> rfl) rfl rfl
  | clr =>
    exact logsOrdered_filter h _ rfl rfl

theorem logsOrdered_reachable {db : DB} (h : Reachable db) : logsOrdered db := by
  induction h with
  | refl => exact ⟨List.Pairwise.nil, by intro l hl; exact absurd hl (by simp [emptyDB])⟩
  | tail hst hstep ih =>
    obtain ⟨op, rfl⟩ := hstep
    exact logsOrdered_stateAfter ih op

theorem ne_empty_of_isDigitStr {s : String} (h : isDigitStr s = true) : s ≠ "" := by
  intro he
  rw [he] at h
  exact absurd h (by decide)

/-- The first disjunct the specification allows: a clock-in request while an
entry is open leaves the state unchanged (rejection). -/
def rejectsOpenClockIn (db : DB) : Prop :=
  ∀ s now z, (clock db s "clock_in" now z).1 = db

/-- The second disjunct: closing always targets the most recently inserted
open entry of the employee, i.e. the last matching row in insertion order. -/
def locatesMostRecentOpen (db : DB) : Prop :=
  ∀ eid, findOpenLog db.time_logs eid =
    (db.time_logs.filter (fun l => l.employee_id == eid && l.clock_out.isNone)).getLast?

/-- C2: in every reachable state the open-entry discipline holds in the sense
the specification allows: a clock-in while an entry is already open is either
rejected, or the prior open entry is the one located deterministically (most
recent by insertion order) when closing.  The code never rejects a clock-in,
and the right disjunct holds: `findOpenLog` (the `ORDER BY id DESC LIMIT 1`
query of `clock_out`) returns exactly the last open entry in insertion order,
because reachable states keep `time_logs` in strictly increasing rowid
order. -/
theorem open_entry_discipline {db : DB} (h : Reachable db) :
    rejectsOpenClockIn db ∨ locatesMostRecentOpen db :=
  Or.inr (fun _ => findOpenLog_getLast (logsOrdered_reachable h).1)

/-- Witness for C2 at the concrete reachable state obtained by creating
employee 101 and clocking it in once. -/
theorem open_entry_discipline_witness :
    rejectsOpenClockIn
        (stateAfter (.clk "101" "clock_in" 0 estZone)
          (stateAfter (.add "101" "Ana" "5551234567" "15.50") emptyDB)) ∨
      locatesMostRecentOpen
        (stateAfter (.clk "101" "clock_in" 0 estZone)
          (stateAfter (.add "101" "Ana" "5551234567" "15.50") emptyDB)) :=
  open_entry_discipline
    (Relation.ReflTransGen.tail
      (Relation.ReflTransGen.single ⟨.add "101" "Ana" "5551234567" "15.50", rfl⟩)
      ⟨.clk "101" "clock_in" 0 estZone, rfl⟩)

/-- C1: for an employee with an open entry, `clock_out` selects the most
recently inserted open entry (the last one in insertion order, given the
rowid order of the table), writes `clock_out = now` on it and writes
`hours_worked = (now − clock_in) / 3600` seconds rounded to 2 decimal
places; a stored `clock_in` lacking zone information is interpreted in the
`EASTERN` zone through `instantOf` (both cases of `Timestamp.offset` are
covered because `log` is arbitrary).  Timestamps being parsed values in this
embedding, the claim's "stored clockIn parses as a timestamp" proviso is
automatically met. -/
theorem clock_out_closes_most_recent (z : Zone) (db : DB) (s : String) (now : Int)
    (log : TimeLogRow)
    (hsort : db.time_logs.Pairwise (fun a b => a.id < b.id))
    (hdig : isDigitStr (trimS s) = true)
    (hex : db.employees.any (fun e => e.employee_id == strToInt (trimS s)) = true)
    (hopen : findOpenLog db.time_logs (strToInt (trimS s)) = some log) :
    clock db s "clock_out" now z =
      ({ db with
         time_logs := db.time_logs.map (fun l =>
           if l.id == log.id then
             { l with
               clock_out := some (z.nowTs now),
               hours_worked :=
                 some (round2 (Rat.divInt (now - instantOf z log.clock_in) 3600)) }
           else l) },
       .clockedOut (round2 (Rat.divInt (now - instantOf z log.clock_in) 3600)))
    ∧ (db.time_logs.filter (fun l =>
          l.employee_id == strToInt (trimS s) && l.clock_out.isNone)).getLast? = some log := by
  constructor
  · simp only [clock]
    rw [if_neg (not_or.mpr ⟨ne_empty_of_isDigitStr hdig, by decide⟩),
      if_neg (by simp [hdig]), if_neg (by simp [hex]),
      if_neg (by decide : ¬ ("clock_out" = "clock_in")), if_pos trivial, hopen]
  · rw [← findOpenLog_getLast hsort]
    exact hopen

/-- Witness for C1, realising the specification scenario: clock-in stored at
civil time 09:00:00 with no zone information, clock-out at the instant whose
Eastern civil time is 17:30:00; the computed figure is 8.50 hours. -/
theorem clock_out_closes_most_recent_witness :
    clock
        { emptyDB with
          employees := [⟨1, 101, "Ana Lee", "5551234567", .finite (Rat.divInt 31 2)⟩],
          time_logs := [⟨1, 101, ⟨32400, none⟩, none, none⟩],
          next_emp_id := 2, next_log_id := 2 }
        "101" "clock_out" 81000 estZone =
      ({ emptyDB with
         employees := [⟨1, 101, "Ana Lee", "5551234567", .finite (Rat.divInt 31 2)⟩],
         time_logs :=
           [⟨1, 101, ⟨32400, none⟩, some ⟨63000, some (-18000)⟩, some (Rat.divInt 17 2)⟩],
         next_emp_id := 2, next_log_id := 2 },
       .clockedOut (Rat.divInt 17 2)) := by
  have h := clock_out_closes_most_recent estZone
    { emptyDB with
      employees := [⟨1, 101, "Ana Lee", "5551234567", .finite (Rat.divInt 31 2)⟩],
      time_logs := [⟨1, 101, ⟨32400, none⟩, none, none⟩],
      next_emp_id := 2, next_log_id := 2 }
    "101" 81000 ⟨1, 101, ⟨32400, none⟩, none, none⟩
    (by decide) (by decide) (by decide) (by decide)
  rw [h.1]
  decide

/-- C4: `clock_out` for an existing employee with no open entry reports
"No clock-in found to clock out." and mutates no rows of either table. -/
theorem clock_out_no_open_entry (db : DB) (s : String) (now : Int) (z : Zone)
    (hdig : isDigitStr (trimS s) = true)
    (hex : db.employees.any (fun e => e.employee_id == strToInt (trimS s)) = true)
    (hnone : findOpenLog db.time_logs (strToInt (trimS s)) = none) :
    clock db s "clock_out" now z = (db, .noOpenEntry) := by
  simp only [clock]
  rw [if_neg (not_or.mpr ⟨ne_empty_of_isDigitStr hdig, by decide⟩),
    if_neg (by simp [hdig]), if_neg (by simp [hex]),
    if_neg (by decide : ¬ ("clock_out" = "clock_in")), if_pos trivial, hnone]

/-- Witness for C4: employee 101 exists, its only entry is closed. -/
theorem clock_out_no_open_entry_witness :
    clock
        { emptyDB with
          employees := [⟨1, 101, "Ana Lee", "5551234567", .finite (Rat.divInt 31 2)⟩],
          time_logs :=
            [⟨1, 101, ⟨32400, some (-18000)⟩, some ⟨63000, some (-18000)⟩,
              some (Rat.divInt 17 2)⟩],
          next_emp_id := 2, next_log_id := 2 }
        "101" "clock_out" 90000 estZone =
      ({ emptyDB with
         employees := [⟨1, 101, "Ana Lee", "5551234567", .finite (Rat.divInt 31 2)⟩],
         time_logs :=
           [⟨1, 101, ⟨32400, some (-18000)⟩, some ⟨63000, some (-18000)⟩,
             some (Rat.divInt 17 2)⟩],
         next_emp_id := 2, next_log_id := 2 },
       .noOpenEntry) :=
  clock_out_no_open_entry _ "101" 90000 estZone (by decide) (by decide) (by decide)

/-- C3: a create whose (validated, nonempty) record carries an employee id
already present in the store is rejected by the pre-check with the
"Employee ID already exists." outcome — one of the `DuplicateIdentifier`
outcomes — before any insert, and with the store's uniqueness constraint
(no duplicate `employee_id` values) the table afterwards holds exactly one
row with that identifier. -/
theorem create_duplicate_rejected (db : DB) (i n p r : String)
    (hi : trimS i ≠ "") (hn : trimS n ≠ "") (hp : trimS p ≠ "") (hr : trimS r ≠ "")
    (hval : validate_employee (trimS i) (trimS n) (trimS p) (trimS r) = [])
    (hnodup : (db.employees.map (fun e => e.employee_id)).Nodup)
    (hdup : strToInt (trimS i) ∈ db.employees.map (fun e => e.employee_id)) :
    addEmployee db i n p r = (db, .duplicateExists) ∧
      isDuplicateIdentifier (addEmployee db i n p r).2 = true ∧
      ((addEmployee db i n p r).1.employees.map (fun e => e.employee_id)).count
        (strToInt (trimS i)) = 1 := by
  have hany : db.employees.any (fun e => e.employee_id == strToInt (trimS i)) = true := by
    rw [List.any_eq_true]
    obtain ⟨e, he, heq⟩ := List.mem_map.mp hdup
    exact ⟨e, he, by simp [heq]⟩
  have hres : addEmployee db i n p r = (db, .duplicateExists) := by
    simp only [addEmployee]
    rw [if_neg (by push_neg; exact ⟨hi, hn, hp, hr⟩), if_neg (by simp [hval]), if_pos hany]
  refine ⟨hres, by rw [hres]; rfl, ?_⟩
  rw [hres]
  exact List.count_eq_one_of_mem hnodup hdup

/-- Witness for C3: the store holds employee 101; a second valid create with
id 101 is rejected and the store still holds exactly one row with id 101. -/
theorem create_duplicate_rejected_witness :
    addEmployee
        { emptyDB with
          employees := [⟨1, 101, "Ana Lee", "5551234567", .finite (Rat.divInt 31 2)⟩],
          next_emp_id := 2 }
        "101" "Bob" "12345" "20" =
      ({ emptyDB with
         employees := [⟨1, 101, "Ana Lee", "5551234567", .finite (Rat.divInt 31 2)⟩],
         next_emp_id := 2 },
       .duplicateExists) ∧
    (([⟨1, 101, "Ana Lee", "5551234567", .finite (Rat.divInt 31 2)⟩] :
        List EmployeeRow).map (fun e => e.employee_id)).count 101 = 1 := by
  have h := create_duplicate_rejected
    { emptyDB with
      employees := [⟨1, 101, "Ana Lee", "5551234567", .finite (Rat.divInt 31 2)⟩],
      next_emp_id := 2 }
    "101" "Bob" "12345" "20"
    (by decide) (by decide) (by decide) (by decide) (by decide) (by decide) (by decide)
  exact ⟨h.1, by have h3 := h.2.2; rw [h.1] at h3; exact h3⟩

theorem filter_ne_eq_erase :
    ∀ (l : List EmployeeRow) (k : Nat) (emp : EmployeeRow),
      (l.map (fun e => e.id)).Nodup → l.find? (fun e => e.id == k) = some emp →
      l.filter (fun e => e.id != k) = l.erase emp := by
  intro l
  induction l with
  | nil => intro k emp _ hf; exact absurd hf (by simp)
  | cons a t ih =>
    intro k emp hnd hf
    by_cases ha : a.id = k
    · have hempa : emp = a := by
        rw [List.find?_cons_of_pos _ (by simp [ha])] at hf
        exact (Option.some.inj hf).symm
      have hmem : a.id ∉ t.map (fun e => e.id) := (List.nodup_cons.mp hnd).1
      have htf : t.filter (fun e => e.id != k) = t := by
        rw [List.filter_eq_self]
        intro e he
        have hne : e.id ≠ k := by
          intro hek
          have hm : e.id ∈ t.map (fun e => e.id) := List.mem_map.mpr ⟨e, he, rfl⟩
          rw [hek, ← ha] at hm
          exact hmem hm
        simp [hne]
      rw [List.filter_cons_of_neg (by simp [ha]), htf, hempa, List.erase_cons_head]
    · have hf' : t.find? (fun e => e.id == k) = some emp := by
        rw [List.find?_cons_of_neg _ (by simp [ha])] at hf
        exact hf
      have hek : emp.id = k := by
        have := List.find?_some hf'
        simpa using this
      have hane : a ≠ emp := fun hae => ha (by rw [hae]; exact hek)
      rw [List.filter_cons_of_pos (by simp [ha]),
        List.erase_cons_tail (by simp [hane]),
        ih k emp (List.nodup_cons.mp hnd).2 hf']

/-- C7: with the primary-key uniqueness of the rowid column, deleting an
existing employee row removes exactly that row and removes exactly the
`time_logs` rows whose `employee_id` matches it, while deleting an absent
row handle reports "Employee not found." and leaves both tables unchanged. -/
theorem delete_cascades (db : DB) (rid : String)
    (hdig : isDigitStr rid = true)
    (hids : (db.employees.map (fun e => e.id)).Nodup) :
    (∀ emp, db.employees.find? (fun e => e.id == strToNat rid) = some emp →
      deleteEmployee db rid =
        ({ db with
           employees := db.employees.filter (fun e => e.id != strToNat rid),
           time_logs := db.time_logs.filter (fun l => l.employee_id != emp.employee_id) },
         .deleted) ∧
      (deleteEmployee db rid).1.employees = db.employees.erase emp ∧
      ∀ l, l ∈ (deleteEmployee db rid).1.time_logs ↔
        l ∈ db.time_logs ∧ l.employee_id ≠ emp.employee_id) ∧
    (db.employees.find? (fun e => e.id == strToNat rid) = none →
      deleteEmployee db rid = (db, .employeeNotFound)) := by
  constructor
  · intro emp hf
    have hres : deleteEmployee db rid =
        ({ db with
           employees := db.employees.filter (fun e => e.id != strToNat rid),
           time_logs := db.time_logs.filter (fun l => l.employee_id != emp.employee_id) },
         .deleted) := by
      simp only [deleteEmployee]
      rw [if_pos hdig, hf]
    refine ⟨hres, ?_, ?_⟩
    · rw [hres]
      exact filter_ne_eq_erase db.employees (strToNat rid) emp hids hf
    · intro l
      rw [hres]
      simp [List.mem_filter]
  · intro hf
    simp only [deleteEmployee]
    rw [if_pos hdig, hf]

/-- Witness for C7: a store with two employees and one ledger row each;
deleting row handle 1 removes employee 101 and its ledger row, while
deleting the absent handle 3 is reported and changes nothing. -/
theorem delete_cascades_witness :
    deleteEmployee
        { emptyDB with
          employees :=
            [⟨1, 101, "Ana Lee", "5551234567", .finite (Rat.divInt 31 2)⟩,
             ⟨2, 202, "Bob", "12345", .finite 20⟩],
          time_logs :=
            [⟨1, 101, ⟨0, some 0⟩, none, none⟩, ⟨2, 202, ⟨5, some 0⟩, none, none⟩],
          next_emp_id := 3, next_log_id := 3 }
        "1" =
      ({ emptyDB with
         employees := [⟨2, 202, "Bob", "12345", .finite 20⟩],
         time_logs := [⟨2, 202, ⟨5, some 0⟩, none, none⟩],
         next_emp_id := 3, next_log_id := 3 },
       .deleted) ∧
    deleteEmployee
        { emptyDB with
          employees :=
            [⟨1, 101, "Ana Lee", "5551234567", .finite (Rat.divInt 31 2)⟩,
             ⟨2, 202, "Bob", "12345", .finite 20⟩],
          time_logs :=
            [⟨1, 101, ⟨0, some 0⟩, none, none⟩, ⟨2, 202, ⟨5, some 0⟩, none, none⟩],
          next_emp_id := 3, next_log_id := 3 }
        "3" =
      ({ emptyDB with
         employees :=
           [⟨1, 101, "Ana Lee", "5551234567", .finite (Rat.divInt 31 2)⟩,
            ⟨2, 202, "Bob", "12345", .finite 20⟩],
         time_logs :=
           [⟨1, 101, ⟨0, some 0⟩, none, none⟩, ⟨2, 202, ⟨5, some 0⟩, none, none⟩],
         next_emp_id := 3, next_log_id := 3 },
       .employeeNotFound) := by
  constructor
  · have h := (delete_cascades
      { emptyDB with
        employees :=
          [⟨1, 101, "Ana Lee", "5551234567", .finite (Rat.divInt 31 2)⟩,
           ⟨2, 202, "Bob", "12345", .finite 20⟩],
        time_logs :=
          [⟨1, 101, ⟨0, some 0⟩, none, none⟩, ⟨2, 202, ⟨5, some 0⟩, none, none⟩],
        next_emp_id := 3, next_log_id := 3 }
      "1" (by decide) (by decide)).1
      ⟨1, 101, "Ana Lee", "5551234567", .finite (Rat.divInt 31 2)⟩ (by decide)
    rw [h.1]
    decide
  · exact (delete_cascades
      { emptyDB with
        employees :=
          [⟨1, 101, "Ana Lee", "5551234567", .finite (Rat.divInt 31 2)⟩,
           ⟨2, 202, "Bob", "12345", .finite 20⟩],
        time_logs :=
          [⟨1, 101, ⟨0, some 0⟩, none, none⟩, ⟨2, 202, ⟨5, some 0⟩, none, none⟩],
        next_emp_id := 3, next_log_id := 3 }
      "3" (by decide) (by decide)).2 (by decide)

theorem isNan_iff {v : PyFloat} : v.isNan = true ↔ v = .nan := by
  cases v <;> simp [PyFloat.isNan]

/-- C6 (amended): for an existing row handle and a validated record, an
update whose employee id equals the row's own identifier succeeds provided
the hourly rate does not parse as NaN, and the update is reported through a
`DuplicateIdentifier` outcome exactly when the new employee id collides with
a different live row or the rate is NaN (a NaN binds as SQL NULL, the
`NOT NULL` constraint raises `sqlite3.IntegrityError`, and the handler
reuses the "Employee ID must be unique." message). -/
theorem update_uniqueness (db : DB) (rid i n p r : String)
    (hdig : isDigitStr rid = true)
    (hi : trimS i ≠ "") (hn : trimS n ≠ "") (hp : trimS p ≠ "") (hr : trimS r ≠ "")
    (hval : validate_employee (trimS i) (trimS n) (trimS p) (trimS r) = [])
    (hnodup : (db.employees.map (fun e => e.employee_id)).Nodup)
    (hrow : ∃ emp ∈ db.employees, emp.id = strToNat rid) :
    ((∀ emp ∈ db.employees, emp.id = strToNat rid →
        emp.employee_id = strToInt (trimS i)) →
      round2Py ((pyFloat (trimS r)).getD (.finite 0)) ≠ .nan →
      (updateEmployee db rid i n p r).2 = .updated) ∧
    (isDuplicateIdentifier (updateEmployee db rid i n p r).2 = true ↔
      ((∃ e ∈ db.employees, e.employee_id = strToInt (trimS i) ∧ e.id ≠ strToNat rid) ∨
        round2Py ((pyFloat (trimS r)).getD (.finite 0)) = .nan)) := by
  have hanyEq :
      (db.employees.any
        (fun e => e.employee_id == strToInt (trimS i) && e.id != strToNat rid)) = true ↔
      ∃ e ∈ db.employees, e.employee_id = strToInt (trimS i) ∧ e.id ≠ strToNat rid := by
    simp [List.any_eq_true]
  have hrowAny : (db.employees.any (fun e => e.id == strToNat rid)) = true := by
    rw [List.any_eq_true]
    obtain ⟨emp, hm, hid⟩ := hrow
    exact ⟨emp, hm, by simp [hid]⟩
  by_cases hany :
      (db.employees.any
        (fun e => e.employee_id == strToInt (trimS i) && e.id != strToNat rid)) = true
  · have hres : updateEmployee db rid i n p r = (db, .duplicateOther) := by
      simp only [updateEmployee]
      rw [if_neg (not_not_intro ⟨hdig, hi, hn, hp, hr⟩), if_neg (by simp [hval]),
        if_pos hany]
    constructor
    · intro hself _
      obtain ⟨e, he, hee, hne⟩ := hanyEq.mp hany
      obtain ⟨emp, hm, hid⟩ := hrow
      have hsame : e.employee_id = emp.employee_id := by
        rw [hee, hself emp hm hid]
      have : e = emp := List.inj_on_of_nodup_map hnodup he hm hsame
      exact absurd (this ▸ hid) hne
    · rw [hres]
      simp only [isDuplicateIdentifier]
      exact ⟨fun _ => Or.inl (hanyEq.mp hany), fun _ => trivial⟩
  · by_cases hnan : round2Py ((pyFloat (trimS r)).getD (.finite 0)) = .nan
    · have hres : updateEmployee db rid i n p r = (db, .integrityError) := by
        simp only [updateEmployee]
        rw [if_neg (not_not_intro ⟨hdig, hi, hn, hp, hr⟩), if_neg (by simp [hval]),
          if_neg hany, if_pos (by rw [hnan]; simp [PyFloat.isNan, hrowAny])]
      constructor
      · intro _ hnn
        exact absurd hnan hnn
      · rw [hres]
        simp only [isDuplicateIdentifier]
        exact ⟨fun _ => Or.inr hnan, fun _ => trivial⟩
    · have hres : updateEmployee db rid i n p r =
          ({ db with
             employees := db.employees.map (fun e =>
               if e.id == strToNat rid then
                 { e with
                   employee_id := strToInt (trimS i), name := trimS n, phone := trimS p,
                   hourly_rate := round2Py ((pyFloat (trimS r)).getD (.finite 0)) }
               else e) },
           .updated) := by
        simp only [updateEmployee]
        rw [if_neg (not_not_intro ⟨hdig, hi, hn, hp, hr⟩), if_neg (by simp [hval]),
          if_neg hany,
          if_neg (by
            intro hcontra
            rcases Bool.and_eq_true .. |>.mp hcontra with ⟨h1, _⟩
            exact hnan (isNan_iff.mp h1))]
      constructor
      · intro _ _
        rw [hres]
      · rw [hres]
        simp only [isDuplicateIdentifier]
        constructor
        · intro hcontra
          exact Bool.noConfusion hcontra
        · intro hor
          rcases hor with hcoll | hns
          · exact absurd (hanyEq.mpr hcoll) hany
          · exact absurd hns hnan

/-- Counterexample for C6 as stated: the store holds only employee 101 at
row handle 1; an update of row 1 keeping its own id 101 but with
`hourlyRate = "nan"` passes validation, collides with no different row, yet
fails with the `DuplicateIdentifier` outcome (the IntegrityError handler's
"Employee ID must be unique.") instead of succeeding. -/
theorem update_self_nan_counterexample :
    updateEmployee
        { emptyDB with
          employees := [⟨1, 101, "Ana Lee", "5551234567", .finite (Rat.divInt 31 2)⟩],
          next_emp_id := 2 }
        "1" "101" "Ana" "5551234567" "nan" =
      ({ emptyDB with
         employees := [⟨1, 101, "Ana Lee", "5551234567", .finite (Rat.divInt 31 2)⟩],
         next_emp_id := 2 },
       .integrityError) ∧
    isDuplicateIdentifier .integrityError = true ∧
    validate_employee "101" "Ana" "5551234567" "nan" = [] ∧
    ¬ ∃ e ∈ ([⟨1, 101, "Ana Lee", "5551234567", .finite (Rat.divInt 31 2)⟩] :
        List EmployeeRow), e.employee_id = 101 ∧ e.id ≠ 1 := by
  refine ⟨by decide, rfl, by decide, ?_⟩
  rintro ⟨e, he, -, hne⟩
  rw [List.mem_singleton.mp he] at hne
  exact hne rfl

/-- Witness for C6's amended theorem: updating row 1 with its own id 101 and
rate "20.5" succeeds, and the duplicate outcome is equivalent to a real
collision or a NaN rate (both false here). -/
theorem update_uniqueness_witness :
    (updateEmployee
        { emptyDB with
          employees := [⟨1, 101, "Ana Lee", "5551234567", .finite (Rat.divInt 31 2)⟩],
          next_emp_id := 2 }
        "1" "101" "Ana" "5551234567" "20.5").2 = .updated ∧
    (isDuplicateIdentifier
        (updateEmployee
          { emptyDB with
            employees := [⟨1, 101, "Ana Lee", "5551234567", .finite (Rat.divInt 31 2)⟩],
            next_emp_id := 2 }
          "1" "101" "Ana" "5551234567" "20.5").2 = true ↔
      ((∃ e ∈ ({ emptyDB with
            employees := [⟨1, 101, "Ana Lee", "5551234567", .finite (Rat.divInt 31 2)⟩],
            next_emp_id := 2 } : DB).employees,
          e.employee_id = strToInt (trimS "101") ∧ e.id ≠ strToNat "1") ∨
        round2Py ((pyFloat (trimS "20.5")).getD (.finite 0)) = .nan)) :=
  ⟨(update_uniqueness
      { emptyDB with
        employees := [⟨1, 101, "Ana Lee", "5551234567", .finite (Rat.divInt 31 2)⟩],
        next_emp_id := 2 }
      "1" "101" "Ana" "5551234567" "20.5"
      (by decide) (by decide) (by decide) (by decide) (by decide) (by decide) (by decide)
      (by decide)).1 (by decide) (by decide),
   (update_uniqueness
      { emptyDB with
        employees := [⟨1, 101, "Ana Lee", "5551234567", .finite (Rat.divInt 31 2)⟩],
        next_emp_id := 2 }
      "1" "101" "Ana" "5551234567" "20.5"
      (by decide) (by decide) (by decide) (by decide) (by decide) (by decide) (by decide)
      (by decide)).2⟩

/-- Spec-side predicate, for refinement comparison only (from the
specification's words): the hourly rate is a plain non-negative decimal
literal — digits, optionally followed by a decimal point and at most 2
digits. -/
def specAcceptableRate (s : String) : Bool :=
  let cs := s.data
  let ip := cs.takeWhile Char.isDigit
  let rest := cs.dropWhile Char.isDigit
  !ip.isEmpty &&
    (rest.isEmpty ||
      (rest.head? == some '.' && rest.tail.all Char.isDigit && rest.tail.length ≤ 2))

/-- Counterexample for C5 as stated: `hourlyRate = "nan"` is accepted by the
validator (`float('nan')` parses, `nan < 0` is false, and `"nan"` has no
decimal point), yet it does not parse as a non-negative decimal number, so
acceptance is not *exactly* the spec predicate. -/
theorem rate_nan_accepted_counterexample :
    rateErrs "nan" = [] ∧
    validate_employee "101" "Ana Lee" "5551234567" "nan" = [] ∧
    specAcceptableRate "nan" = false := by
  refine ⟨by decide, by decide, by decide⟩

/-- C5 (amended): for plain decimal literals the stated rule holds — a digit
string with a decimal point and at most 2 fractional digits is accepted, one
with more than 2 fractional digits yields exactly the precision violation, a
plain digit string is accepted — and any string `float()` cannot parse
yields exactly the distinct not-a-number violation (so the precision
violation does not also fire).  Dropped from the original claim is only the
converse direction: the validator also accepts some non-decimal inputs such
as `"nan"`, `"inf"` and exponent literals. -/
theorem hourly_rate_rules :
    (∀ ds fs : List Char, ds ≠ [] → (∀ c ∈ ds, c.isDigit = true) →
      (∀ c ∈ fs, c.isDigit = true) → fs.length ≤ 2 →
      rateErrs (String.mk (ds ++ '.' :: fs)) = []) ∧
    (∀ ds fs : List Char, ds ≠ [] → (∀ c ∈ ds, c.isDigit = true) →
      (∀ c ∈ fs, c.isDigit = true) → 2 < fs.length →
      rateErrs (String.mk (ds ++ '.' :: fs)) = [ratePrecMsg]) ∧
    (∀ ds : List Char, ds ≠ [] → (∀ c ∈ ds, c.isDigit = true) →
      rateErrs (String.mk ds) = []) ∧
    (∀ s : String, pyFloat s = none → rateErrs s = [rateNumMsg]) := by
  refine ⟨?_, ?_, ?_, ?_⟩
  · intro ds fs h1 h2 h3 h4
    rw [rateErrs_plain h1 h2 h3, if_neg (Nat.not_lt.mpr h4)]
  · intro ds fs h1 h2 h3 h4
    rw [rateErrs_plain h1 h2 h3, if_pos h4]
  · exact fun ds h1 h2 => rateErrs_digits h1 h2
  · exact fun s h => rateErrs_parse_fail h

/-- Witness for C5's amended theorem at the specification's scenario inputs:
"15.50" and "15" are accepted, "15.555" draws the precision violation, and
"abc" draws the not-a-number violation alone. -/
theorem hourly_rate_rules_witness :
    rateErrs (String.mk (['1', '5'] ++ '.' :: ['5', '0'])) = [] ∧
    rateErrs (String.mk (['1', '5'] ++ '.' :: ['5', '5', '5'])) = [ratePrecMsg] ∧
    rateErrs (String.mk ['1', '5']) = [] ∧
    rateErrs "abc" = [rateNumMsg] :=
  ⟨hourly_rate_rules.1 ['1', '5'] ['5', '0'] (by decide) (by decide) (by decide)
      (by decide),
   hourly_rate_rules.2.1 ['1', '5'] ['5', '5', '5'] (by decide) (by decide) (by decide)
      (by decide),
   hourly_rate_rules.2.2.1 ['1', '5'] (by decide) (by decide),
   hourly_rate_rules.2.2.2 "abc" (by decide)⟩

/-- C9: the validator is deterministic (it is a pure function; the
decomposition below fixes the violation order id, name, phone, rate), its
four rules are independent (the result is the concatenation of four
per-field violation lists), a quadruple passing all four field rules yields
no violations, and corrupting a single field of a passing quadruple yields
exactly that field's violations and introduces no others. -/
theorem validator_rules :
    (∀ i n p r, validate_employee i n p r =
      idErrs i ++ nameErrs n ++ phoneErrs p ++ rateErrs r) ∧
    (∀ i n p r, validate_employee i n p r = [] ↔
      idErrs i = [] ∧ nameErrs n = [] ∧ phoneErrs p = [] ∧ rateErrs r = []) ∧
    (∀ i i' n p r, validate_employee i n p r = [] →
      validate_employee i' n p r = idErrs i') ∧
    (∀ i n n' p r, validate_employee i n p r = [] →
      validate_employee i n' p r = nameErrs n') ∧
    (∀ i n p p' r, validate_employee i n p r = [] →
      validate_employee i n p' r = phoneErrs p') ∧
    (∀ i n p r r', validate_employee i n p r = [] →
      validate_employee i n p r' = rateErrs r') := by
  have hiff : ∀ i n p r, validate_employee i n p r = [] ↔
      idErrs i = [] ∧ nameErrs n = [] ∧ phoneErrs p = [] ∧ rateErrs r = [] := by
    intro i n p r
    rw [validate_decomp]
    simp [List.append_eq_nil]
  refine ⟨validate_decomp, hiff, ?_, ?_, ?_, ?_⟩
  · intro i i' n p r h
    obtain ⟨-, h2, h3, h4⟩ := (hiff i n p r).mp h
    rw [validate_decomp, h2, h3, h4]
    simp
  · intro i n n' p r h
    obtain ⟨h1, -, h3, h4⟩ := (hiff i n p r).mp h
    rw [validate_decomp, h1, h3, h4]
    simp
  · intro i n p p' r h
    obtain ⟨h1, h2, -, h4⟩ := (hiff i n p r).mp h
    rw [validate_decomp, h1, h2, h4]
    simp
  · intro i n p r r' h
    obtain ⟨h1, h2, h3, -⟩ := (hiff i n p r).mp h
    rw [validate_decomp, h1, h2, h3]
    simp

/-- Witness for C9: a valid quadruple validates clean, and corrupting each
field in turn yields exactly that field's violation. -/
theorem validator_rules_witness :
    validate_employee "101" "Ana Lee" "5551234567" "15.50" = [] ∧
    validate_employee "x9" "Ana Lee" "5551234567" "15.50" = [idErrMsg] ∧
    validate_employee "101" "Ana5" "5551234567" "15.50" = [nameErrMsg] ∧
    validate_employee "101" "Ana Lee" "55-1" "15.50" = [phoneErrMsg] ∧
    validate_employee "101" "Ana Lee" "5551234567" "15.555" = [ratePrecMsg] := by
  have hv : validate_employee "101" "Ana Lee" "5551234567" "15.50" = [] := by decide
  refine ⟨hv, ?_, ?_, ?_, ?_⟩
  · rw [validator_rules.2.2.1 "101" "x9" "Ana Lee" "5551234567" "15.50" hv]
    decide
  · rw [validator_rules.2.2.2.1 "101" "Ana Lee" "Ana5" "5551234567" "15.50" hv]
    decide
  · rw [validator_rules.2.2.2.2.1 "101" "Ana Lee" "5551234567" "55-1" "15.50" hv]
    decide
  · rw [validator_rules.2.2.2.2.2 "101" "Ana Lee" "5551234567" "15.50" "15.555" hv]
    decide

/-- Counterexample for C8 as stated: in the reachable state obtained by
creating employee 101, clocking it in, and resetting its hours, the ledger
holds an entry that is still open (`clock_out` null) and yet has
`hours_worked = 0`, not null — `reset_hours` zeroes open entries too,
because its UPDATE carries no `clock_out IS NULL` filter. -/
theorem open_entry_zero_hours_counterexample :
    Reachable
        (stateAfter (.rst "101")
          (stateAfter (.clk "101" "clock_in" 0 estZone)
            (stateAfter (.add "101" "Ana" "5551234567" "15.50") emptyDB))) ∧
      (stateAfter (.rst "101")
          (stateAfter (.clk "101" "clock_in" 0 estZone)
            (stateAfter (.add "101" "Ana" "5551234567" "15.50") emptyDB))).time_logs.any
        (fun l => l.clock_out.isNone && l.hours_worked == some (0 : Rat)) = true :=
  ⟨Relation.ReflTransGen.tail
      (Relation.ReflTransGen.tail
        (Relation.ReflTransGen.single ⟨.add "101" "Ana" "5551234567" "15.50", rfl⟩)
        ⟨.clk "101" "clock_in" 0 estZone, rfl⟩)
      ⟨.rst "101", rfl⟩,
   by decide⟩

/-- C8 (amended): an entry is created by clock-in with `hours_worked` null
(and `clock_out` null), and `reset_hours` deletes no history and leaves
every entry's `clock_out`, `clock_in`, id and owner unchanged — open entries
remain open — but it sets `hours_worked = 0` on *all* of the employee's
entries, open ones included, so after a reset an open entry holds 0 rather
than null. -/
theorem reset_hours_preserves_history (db : DB) (s : String)
    (hdig : isDigitStr (trimS s) = true)
    (hex : db.employees.any (fun e => e.employee_id == strToInt (trimS s)) = true) :
    reset_hours db s =
      ({ db with
         time_logs := db.time_logs.map (fun l =>
           if l.employee_id == strToInt (trimS s) then
             { l with hours_worked := some (0 : Rat) }
           else l) },
       .hoursReset) ∧
    (∀ l : TimeLogRow,
      (if l.employee_id == strToInt (trimS s) then
          { l with hours_worked := some (0 : Rat) }
        else l).clock_out = l.clock_out ∧
      (if l.employee_id == strToInt (trimS s) then
          { l with hours_worked := some (0 : Rat) }
        else l).clock_in = l.clock_in ∧
      (if l.employee_id == strToInt (trimS s) then
          { l with hours_worked := some (0 : Rat) }
        else l).id = l.id ∧
      (if l.employee_id == strToInt (trimS s) then
          { l with hours_worked := some (0 : Rat) }
        else l).employee_id = l.employee_id ∧
      (if l.employee_id == strToInt (trimS s) then
          { l with hours_worked := some (0 : Rat) }
        else l).hours_worked =
        (if l.employee_id = strToInt (trimS s) then some (0 : Rat) else l.hours_worked)) ∧
    (reset_hours db s).1.time_logs.length = db.time_logs.length ∧
    (∀ now z, (clock db s "clock_in" now z).1.time_logs.getLast? =
      some ⟨db.next_log_id, strToInt (trimS s), z.nowTs now, none, none⟩) := by
  have hres : reset_hours db s =
      ({ db with
         time_logs := db.time_logs.map (fun l =>
           if l.employee_id == strToInt (trimS s) then
             { l with hours_worked := some (0 : Rat) }
           else l) },
       .hoursReset) := by
    simp only [reset_hours]
    rw [if_neg (not_or.mpr ⟨ne_empty_of_isDigitStr hdig, by simp [hdig]⟩),
      if_neg (by simp [hex])]
  refine ⟨hres, ?_, ?_, ?_⟩
  · intro l
    by_cases hl : l.employee_id == strToInt (trimS s)
    · have hl' : l.employee_id = strToInt (trimS s) := by simpa using hl
      simp [hl, hl']
    · have hl' : ¬ l.employee_id = strToInt (trimS s) := by simpa using hl
      simp [hl, hl']
  · rw [hres]
    exact List.length_map _ _
  · intro now z
    simp only [clock]
    rw [if_neg (not_or.mpr ⟨ne_empty_of_isDigitStr hdig, by decide⟩),
      if_neg (by simp [hdig]), if_neg (by simp [hex]), if_pos trivial]
    exact List.getLast?_concat _

/-- Witness for C8's amended theorem: a store with one open and one closed
entry for employee 101 — the reset zeroes both `hours_worked` figures,
leaves the open entry open, keeps both rows, and a clock-in appends a fresh
null-hours open entry. -/
theorem reset_hours_preserves_history_witness :
    reset_hours
        { emptyDB with
          employees := [⟨1, 101, "Ana Lee", "5551234567", .finite (Rat.divInt 31 2)⟩],
          time_logs :=
            [⟨1, 101, ⟨0, some 0⟩, some ⟨3600, some 0⟩, some 1⟩,
             ⟨2, 101, ⟨7200, some 0⟩, none, none⟩],
          next_emp_id := 2, next_log_id := 3 }
        "101" =
      ({ emptyDB with
         employees := [⟨1, 101, "Ana Lee", "5551234567", .finite (Rat.divInt 31 2)⟩],
         time_logs :=
           [⟨1, 101, ⟨0, some 0⟩, some ⟨3600, some 0⟩, some 0⟩,
            ⟨2, 101, ⟨7200, some 0⟩, none, some 0⟩],
         next_emp_id := 2, next_log_id := 3 },
       .hoursReset) ∧
    (clock
        { emptyDB with
          employees := [⟨1, 101, "Ana Lee", "5551234567", .finite (Rat.divInt 31 2)⟩],
          time_logs :=
            [⟨1, 101, ⟨0, some 0⟩, some ⟨3600, some 0⟩, some 1⟩,
             ⟨2, 101, ⟨7200, some 0⟩, none, none⟩],
          next_emp_id := 2, next_log_id := 3 }
        "101" "clock_in" 9000 estZone).1.time_logs.getLast? =
      some ⟨3, 101, ⟨-9000, some (-18000)⟩, none, none⟩ := by
  have h := reset_hours_preserves_history
    { emptyDB with
      employees := [⟨1, 101, "Ana Lee", "5551234567", .finite (Rat.divInt 31 2)⟩],
      time_logs :=
        [⟨1, 101, ⟨0, some 0⟩, some ⟨3600, some 0⟩, some 1⟩,
         ⟨2, 101, ⟨7200, some 0⟩, none, none⟩],
      next_emp_id := 2, next_log_id := 3 }
    "101" (by decide) (by decide)
  constructor
  · rw [h.1]
    decide
  · rw [h.2.2.2 9000 estZone]
    decide

/-- First-character shape of `natChars`: it always emits a leading decimal
digit. -/
theorem natChars_head :
    ∀ (n : Nat) (acc : List Char), ∃ c cs, natChars n acc = c :: cs ∧ c.isDigit = true := by
  intro n
  induction n using Nat.strong_induction_on with
  | _ n ih =>
    intro acc
    unfold natChars
    split
    · refine ⟨Char.ofNat (48 + n % 10), acc, rfl, ?_⟩
      have h10 : n % 10 < 10 := Nat.mod_lt _ (by omega)
      set m := n % 10 with hm
      interval_cases m <;> decide
    · exact ih (n / 10) (Nat.div_lt_self (by omega) (by omega)) _

/-- The text of an SQLite INTEGER starts with a digit or a minus sign, so it
never matches `LIKE 'EMP%'`. -/
theorem likeEmpPat_int_false (i : Int) : likeEmpPat (sqliteIntText i) = false := by
  cases i with
  | ofNat n =>
    obtain ⟨c, cs, hc, hd⟩ := natChars_head n []
    have h1 : (c == 'E') = false := beq_eq_false_iff_ne.mpr (digit_ne hd (by decide))
    have h2 : (c == 'e') = false := beq_eq_false_iff_ne.mpr (digit_ne hd (by decide))
    simp only [sqliteIntText, hc]
    cases cs with
    | nil => rfl
    | cons b t =>
      cases t with
      | nil => rfl
      | cons c2 t2 => simp [likeEmpPat, h1, h2]
  | negSucc n =>
    obtain ⟨c, cs, hc, -⟩ := natChars_head (n + 1) []
    simp only [sqliteIntText, hc]
    cases cs with
    | nil => rfl
    | cons b t => simp [likeEmpPat]

/-- C10: under the `init_db` schema both `employee_id` columns hold INTEGER
values, whose text never begins with `E`, so the two `LIKE 'EMP%'` deletes
of `clear_test_employees` match nothing and the database is unchanged. -/
theorem clear_test_employees_noop (db : DB) : clear_test_employees db = db := by
  unfold clear_test_employees
  rw [List.filter_eq_self.mpr
      (fun l _ => by rw [likeEmpPat_int_false l.employee_id]; rfl),
    List.filter_eq_self.mpr
      (fun e _ => by rw [likeEmpPat_int_false e.employee_id]; rfl)]

end Scheduler
